import Mathlib

/-!
Verification development for the `mongo-orm` metadata registry.

The embedding follows `src/classes/ReflectUtils.ts` (the metadata store
wrapper, the field registry, the accessor installer and the model
introspector) together with the `Field` declaration site.  Modules of the
repository that are not part of the shown sources (`src/types`,
`src/utils` with `unpackField` and `whileHasParentConstructor`, and the
out-of-band metadata facility) are modelled from the specification and
carry a doc comment saying so.

Conventions of the embedding:
* a class is identified by an opaque handle `ClassId := Nat`;
* the process-wide metadata storage is an explicit association list keyed
  by `(class, metadata kind)`; `defineMetadata` shadows older entries, so
  lookup always sees the newest binding;
* JavaScript exceptions become `Except` results; since a thrown exception
  does not roll back earlier heap writes, every stateful operation returns
  `Except OrmError α × OrmState`, the second component being the heap at
  the moment the operation returned or threw;
* reading an absent object property yields `undefined`, which is falsy;
  this matters for `f.isPrimary` on raw descriptors (see
  `IFieldMeta.isPrimary`).
-/

/-- A JavaScript runtime value, as far as the registry observes one. -/
inductive JsValue where
  | str (s : String)
  | num (n : Int)
  | bool (b : Bool)
  | null
  | undef
deriving DecidableEq, Repr

/-- Value-type tag of a field (`TAnyFieldType` in the sources); opaque to
all registry logic, so a plain string suffices. -/
abbrev TAnyFieldType := String

/-- Opaque handle identifying a class (constructor function). -/
abbrev ClassId := Nat

/-- Raw field descriptor.  Modelled from the spec: `IFieldMeta` lives in
`src/types`, which is absent from the sources.  Per the spec's data model a
raw descriptor carries `classPropertyName`, `dbPropertyName`, `type`,
`isNullable`, `defaultValue` and `isIdentifier` (the primary-key mark); the
`Field` declaration site (`src/unnamed/part_000`) constructs exactly these
six properties. -/
structure IFieldMeta where
  classPropertyName : String
  dbPropertyName : String
  type : TAnyFieldType
  isNullable : Bool
  defaultValue : Option JsValue
  isIdentifier : Bool
deriving DecidableEq, Repr

/-- In `addOwnField` the source evaluates `f.isPrimary` on a raw
`IFieldMeta`.  A raw descriptor has no `isPrimary` property — the
primary-key mark of a raw descriptor is called `isIdentifier`, and only the
resolved (`IUnpackedFieldMeta`) descriptor owns an `isPrimary` property,
produced by `unpackField` normalising `isIdentifier` —  so in JavaScript
the access yields `undefined`, which is falsy wherever the source uses it
as a boolean.  The embedding makes that explicit: the property read is
constantly `false` on raw descriptors. -/
def IFieldMeta.isPrimary (_ : IFieldMeta) : Bool := false

/-- Resolved ("unpacked") field descriptor.  Modelled from the spec:
`IUnpackedFieldMeta` lives in `src/types`, absent from the sources; it has
the raw fields with all defaults applied and `isIdentifier` normalised into
`isPrimary`. -/
structure IUnpackedFieldMeta where
  classPropertyName : String
  dbPropertyName : String
  type : TAnyFieldType
  isNullable : Bool
  defaultValue : Option JsValue
  isPrimary : Bool
deriving DecidableEq, Repr

/-- Modelled from the spec: `unpackField` lives in `src/utils`, absent from
the sources.  Resolution copies `dbPropertyName`, `defaultValue`, `type`
and the (already defaulted) `isNullable`, and normalises `isIdentifier`
into `isPrimary`. -/
def unpackField (f : IFieldMeta) : IUnpackedFieldMeta :=
  { classPropertyName := f.classPropertyName
    dbPropertyName := f.dbPropertyName
    type := f.type
    isNullable := f.isNullable
    defaultValue := f.defaultValue
    isPrimary := f.isIdentifier }

/-- The class hierarchy: for each class, its ancestor chain (nearest
ancestor first, up to and including the root).  In JavaScript this is the
constructor prototype chain, which is finite and acyclic, so it is sound to
record it as an explicit list. -/
structure Hierarchy where
  ancestors : ClassId → List ClassId

/-- Modelled from the spec: `whileHasParentConstructor` lives in
`src/utils`, absent from the sources.  It visits "the class itself followed
by each ancestor in the constructor chain, stopping at the root"; this is
the sequence of classes visited. -/
def constructorChain (h : Hierarchy) (target : ClassId) : List ClassId :=
  target :: h.ancestors target

/-- The metadata keys of `EMetaDataKey` in `ReflectUtils.ts`. -/
inductive EMetaDataKey where
  | AreFieldsApplied
  | Collection
  | Fields
  | ObjectType
  | UnpackedFields
deriving DecidableEq, Repr

/-- The object kinds stored under `EMetaDataKey.ObjectType`. -/
inductive TObjectType where
  | model
  | dataMapper
deriving DecidableEq, Repr

/-- A value stored in the metadata facility (`IMetaValuesMap` in the
source): a boolean flag, a collection-name string, an object kind, a raw
field list or a resolved field list. -/
inductive MetaValue where
  | bool (b : Bool)
  | str (s : String)
  | objectType (t : TObjectType)
  | fields (l : List IFieldMeta)
  | unpacked (l : List IUnpackedFieldMeta)
deriving DecidableEq, Repr

/-- JavaScript truthiness of a stored metadata value: `false` and the empty
string are falsy; the object-kind strings `'model'` / `'data-mapper'` are
non-empty, and arrays are objects, hence truthy. -/
def MetaValue.truthy : MetaValue → Bool
  | .bool b => b
  | .str s => !(s == "")
  | .objectType _ => true
  | .fields _ => true
  | .unpacked _ => true

/-- The process-wide metadata storage: bindings of `(class, key)` to a
value, newest binding first. -/
abbrev MetaStore := List (ClassId × EMetaDataKey × MetaValue)

namespace Reflect

/-- Modelled from the spec: the out-of-band metadata facility (the
`reflect-metadata` dependency) is, per the spec's store contract and design
notes, "an explicit mapping from class identity to a metadata record",
"scoped per exact class (not inherited automatically)".  Lookup returns the
newest binding for `(target, key)`, or `none` when no `defineMetadata` call
bound that exact pair.  The optional per-property key of the source is
never supplied by any registry call site, so it is omitted. -/
def getMetadata : MetaStore → EMetaDataKey → ClassId → Option MetaValue
  | [], _, _ => none
  | (t, k, v) :: rest, key, target =>
    if t = target ∧ k = key then some v else getMetadata rest key target

/-- Modelled from the spec (see `Reflect.getMetadata`): storing shadows any
older binding of the same `(target, key)` pair. -/
def defineMetadata (s : MetaStore) (key : EMetaDataKey) (value : MetaValue)
    (target : ClassId) : MetaStore :=
  (target, key, value) :: s

/-- Modelled from the spec (see `Reflect.getMetadata`): presence of a
binding, with no truthiness coercion. -/
def hasMetadata (s : MetaStore) (key : EMetaDataKey) (target : ClassId) : Bool :=
  (getMetadata s key target).isSome

end Reflect

/-- Errors thrown by the registry (`src/errors`).  The
`PrimaryKeyAlreadyDefinedError` class is thrown with a raw-descriptor
payload from `addOwnField` and with a resolved-descriptor payload from
`collectModelInformation`; the embedding needs two constructors for the two
payload shapes.  `typeError` is a host-language `TypeError`. -/
inductive OrmError where
  | propertyAlreadyDefined (prevField currentField : IFieldMeta)
  | primaryKeyAlreadyDefinedRaw (model : ClassId) (prevField currentField : IFieldMeta)
  | primaryKeyAlreadyDefined (model : ClassId) (prevField currentField : IUnpackedFieldMeta)
  | modelNotFound (model : ClassId)
  | emptyFieldsList (model : ClassId)
  | primaryKeyNotDefined (model : ClassId)
  | typeError (msg : String)
deriving DecidableEq, Repr

/-- The mutable world the registry acts on: the metadata storage, plus the
accessor properties installed on class prototypes (`protoProps` records,
for each installed accessor, the class, the class-side property name and
the document-side property name captured by the getter/setter closures).
`resolutionLog` is auxiliary ghost state: it records, in order, every class
whose raw field list was mapped through `unpackField`; it influences no
behaviour and exists so that "the mapping runs at most once per class" is a
statement about states. -/
structure OrmState where
  store : MetaStore
  resolutionLog : List ClassId
  protoProps : List (ClassId × String × String)
deriving DecidableEq, Repr

namespace ReflectUtils

/-- `ReflectUtils.get`: reads the metadata value and coerces it with
`|| null`, so every falsy stored value (`false`, the empty string) is
reported as absent. -/
def get (s : MetaStore) (key : EMetaDataKey) (target : ClassId) : Option MetaValue :=
  match Reflect.getMetadata s key target with
  | some v => if v.truthy then some v else none
  | none => none

/-- `ReflectUtils.has`: presence check, delegating to the facility without
coercion. -/
def has (s : MetaStore) (key : EMetaDataKey) (target : ClassId) : Bool :=
  Reflect.hasMetadata s key target

/-- `ReflectUtils.set`: stores a metadata value. -/
def set (s : MetaStore) (key : EMetaDataKey) (value : MetaValue)
    (target : ClassId) : MetaStore :=
  Reflect.defineMetadata s key value target

/-- `ReflectUtils.getOwnFields`: the class's own raw field list,
`this.get(EMetaDataKey.Fields, target) || []`. -/
def getOwnFields (s : MetaStore) (target : ClassId) : List IFieldMeta :=
  match get s EMetaDataKey.Fields target with
  | some (.fields l) => l
  | _ => []

/-- `ReflectUtils.getFields`: all raw fields of the model, the own fields
of every class on the constructor chain, most-derived class first. -/
def getFields (h : Hierarchy) (s : MetaStore) (target : ClassId) : List IFieldMeta :=
  (constructorChain h target).foldl (fun acc ctr => acc ++ getOwnFields s ctr) []

/-- The body of the `forEach` callback in `addOwnField`: the error thrown
for an already-present descriptor `f` against the incoming `fieldMeta`, if
any.  The first guard reads `isPrimary` on raw descriptors (see
`IFieldMeta.isPrimary`). -/
def fieldConflict (target : ClassId) (fieldMeta f : IFieldMeta) : Option OrmError :=
  if f.isPrimary && fieldMeta.isPrimary then
    some (.primaryKeyAlreadyDefinedRaw target f fieldMeta)
  else if f.classPropertyName = fieldMeta.classPropertyName then
    some (.propertyAlreadyDefined f fieldMeta)
  else
    none

/-- `ReflectUtils.addOwnField`: scans `getFields target` (the full
inherited list) for a conflict, throwing at the first one; otherwise
appends the descriptor to the class's own field list. -/
def addOwnField (h : Hierarchy) (st : OrmState) (target : ClassId)
    (fieldMeta : IFieldMeta) : Except OrmError Unit × OrmState :=
  let fields := getFields h st.store target
  match fields.findSome? (fieldConflict target fieldMeta) with
  | some e => (.error e, st)
  | none =>
      (.ok (),
        { st with
            store := set st.store EMetaDataKey.Fields
              (.fields (getOwnFields st.store target ++ [fieldMeta])) target })

/-- `ReflectUtils.getUnpackedOwnFields`: the class's own resolved field
list.  On a cache miss the raw list is mapped through `unpackField` and the
result is stored under `EMetaDataKey.UnpackedFields`; on a hit the cached
list is returned with no state change.  The ghost `resolutionLog` records
the mapping. -/
def getUnpackedOwnFields (st : OrmState) (target : ClassId) :
    List IUnpackedFieldMeta × OrmState :=
  match get st.store EMetaDataKey.UnpackedFields target with
  | some (.unpacked l) => (l, st)
  | _ =>
      let unpacked := (getOwnFields st.store target).map unpackField
      (unpacked,
        { st with
            store := set st.store EMetaDataKey.UnpackedFields
              (.unpacked unpacked) target
            resolutionLog := st.resolutionLog ++ [target] })

/-- The `whileHasParentConstructor` loop of `getUnpackedFields`: visits the
given classes in order, pushing each class's own resolved fields and
threading the state. -/
def unpackedFieldsLoop (st : OrmState) :
    List ClassId → List IUnpackedFieldMeta × OrmState
  | [] => ([], st)
  | ctr :: rest =>
      let (own, st') := getUnpackedOwnFields st ctr
      let (tail, st'') := unpackedFieldsLoop st' rest
      (own ++ tail, st'')

/-- `ReflectUtils.getUnpackedFields`: all resolved fields of the class and
its ancestors, most-derived class first. -/
def getUnpackedFields (h : Hierarchy) (st : OrmState) (target : ClassId) :
    List IUnpackedFieldMeta × OrmState :=
  unpackedFieldsLoop st (constructorChain h target)

end ReflectUtils

/-- A JavaScript property descriptor, reduced to what `defineProperty`
validation observes: which attributes are present, and the `enumerable` /
`configurable` flags. -/
structure PropertyDescriptor where
  hasGet : Bool
  hasSet : Bool
  hasValue : Bool
  hasWritable : Bool
  enumerable : Bool
  configurable : Bool
deriving DecidableEq, Repr

/-- The descriptor literal passed by `applyFields`: a getter, a setter,
`writable: false`, `enumerable: true`, `configurable: false`.  Note that
both accessor attributes and the data attribute `writable` are present. -/
def applyFieldsDescriptor : PropertyDescriptor :=
  { hasGet := true
    hasSet := true
    hasValue := false
    hasWritable := true
    enumerable := true
    configurable := false }

/-- Host-language `Object.defineProperty`, as ECMA-262's
`ToPropertyDescriptor` validates it: a descriptor that has an accessor
attribute (`get` or `set`) together with a data attribute (`value` or
`writable`) is rejected with
`TypeError: Invalid property descriptor. Cannot both specify accessors and
a value or writable attribute`.  On success the accessor is recorded on the
class's prototype; `classProp`/`dbProp` are the property name and the
document key captured by the getter/setter closures. -/
def jsDefineProperty (st : OrmState) (target : ClassId)
    (classProp dbProp : String) (desc : PropertyDescriptor) :
    Except OrmError OrmState :=
  if (desc.hasGet || desc.hasSet) && (desc.hasValue || desc.hasWritable) then
    .error (.typeError "Invalid property descriptor. Cannot both specify accessors and a value or writable attribute")
  else
    .ok { st with protoProps := st.protoProps ++ [(target, classProp, dbProp)] }

namespace ReflectUtils

/-- The `forEach` loop of `applyFields`: defines an accessor for each
resolved field; a thrown `TypeError` propagates, keeping the state reached
so far. -/
def applyFieldsLoop (st : OrmState) (target : ClassId) :
    List IUnpackedFieldMeta → Except OrmError Unit × OrmState
  | [] => (.ok (), st)
  | f :: rest =>
      match jsDefineProperty st target f.classPropertyName f.dbPropertyName
          applyFieldsDescriptor with
      | .error e => (.error e, st)
      | .ok st' => applyFieldsLoop st' target rest

/-- The guard of `applyFields`:
`this.get(EMetaDataKey.AreFieldsApplied, target) === true`. -/
def areFieldsApplied (s : MetaStore) (target : ClassId) : Bool :=
  match get s EMetaDataKey.AreFieldsApplied target with
  | some (.bool true) => true
  | _ => false

/-- `ReflectUtils.applyFields`: a no-op when the per-class
`AreFieldsApplied` flag is `true`; otherwise resolves the full field list,
defines one accessor per field, and finally sets the flag. -/
def applyFields (h : Hierarchy) (st : OrmState) (target : ClassId) :
    Except OrmError Unit × OrmState :=
  if areFieldsApplied st.store target then
    (.ok (), st)
  else
    match getUnpackedFields h st target with
    | (fields, st') =>
        match applyFieldsLoop st' target fields with
        | (.error e, st'') => (.error e, st'')
        | (.ok _, st'') =>
            (.ok (),
              { st'' with
                  store := set st''.store EMetaDataKey.AreFieldsApplied
                    (.bool true) target })

/-- The validated model view returned by `collectModelInformation`. -/
structure IModelInformation where
  collection : String
  primaryField : IUnpackedFieldMeta
  fields : List IUnpackedFieldMeta
deriving DecidableEq, Repr

/-- The primary-field scan of `collectModelInformation`: walks the resolved
list tracking the first primary field (`acc`), throwing
`PrimaryKeyAlreadyDefinedError` on a second one and
`PrimaryKeyNotDefinedError` when the walk ends with none found. -/
def findPrimaryField (target : ClassId) (acc : Option IUnpackedFieldMeta) :
    List IUnpackedFieldMeta → Except OrmError IUnpackedFieldMeta
  | [] =>
      match acc with
      | some p => .ok p
      | none => .error (.primaryKeyNotDefined target)
  | f :: rest =>
      if f.isPrimary then
        match acc with
        | some p => .error (.primaryKeyAlreadyDefined target p f)
        | none => findPrimaryField target (some f) rest
      else
        findPrimaryField target acc rest

/-- `ReflectUtils.collectModelInformation`: validates and assembles the
model view.  The collection lookup goes through the coercing getter, so a
falsy stored collection name counts as absent. -/
def collectModelInformation (h : Hierarchy) (st : OrmState) (target : ClassId) :
    Except OrmError IModelInformation × OrmState :=
  match get st.store EMetaDataKey.Collection target with
  | some (.str collection) =>
      let (fields, st') := getUnpackedFields h st target
      if fields.length = 0 then
        (.error (.emptyFieldsList target), st')
      else
        match findPrimaryField target none fields with
        | .error e => (.error e, st')
        | .ok p => (.ok ⟨collection, p, fields⟩, st')
  | _ => (.error (.modelNotFound target), st)

/-- `ReflectUtils.defineModel`: marks the class as a model bound to the
given collection name. -/
def defineModel (st : OrmState) (target : ClassId) (collection : String) :
    OrmState :=
  let s1 := set st.store EMetaDataKey.Collection (.str collection) target
  let s2 := set s1 EMetaDataKey.ObjectType (.objectType .model) target
  { st with store := s2 }

/-- Runs a sequence of `addOwnField` calls on one class, stopping at the
first thrown error (a throw at a declaration site aborts module
initialisation). -/
def addOwnFieldSeq (h : Hierarchy) (st : OrmState) (target : ClassId) :
    List IFieldMeta → Except OrmError Unit × OrmState
  | [] => (.ok (), st)
  | d :: ds =>
      match addOwnField h st target d with
      | (.ok _, st') => addOwnFieldSeq h st' target ds
      | (.error e, st') => (.error e, st')

end ReflectUtils

/-- One `ReflectUtils.set` call, for reasoning about arbitrary sequences of
writes to the metadata store. -/
structure SetOp where
  target : ClassId
  key : EMetaDataKey
  value : MetaValue
deriving DecidableEq, Repr

/-- Applies a sequence of `ReflectUtils.set` calls, oldest first. -/
def applyOps : MetaStore → List SetOp → MetaStore
  | s, [] => s
  | s, op :: rest => applyOps (ReflectUtils.set s op.key op.value op.target) rest

/-! ## Derived views used in specifications -/

/-- The cache view: the resolved field list currently stored for a class,
if any (reading through the coercing getter, as the source does). -/
def cachedUnpackedFields (st : OrmState) (x : ClassId) :
    Option (List IUnpackedFieldMeta) :=
  match ReflectUtils.get st.store EMetaDataKey.UnpackedFields x with
  | some (.unpacked l) => some l
  | _ => none

/-- The resolution-log invariant: the ghost log never repeats a class, and
every logged class has a populated cache.  Starting from a state with an
empty log, every state reachable through the resolver satisfies it, so the
`unpackField` mapping runs at most once per class across all calls. -/
def ResolutionInvariant (st : OrmState) : Prop :=
  st.resolutionLog.Nodup ∧
  ∀ x ∈ st.resolutionLog, (cachedUnpackedFields st x).isSome = true

instance (st : OrmState) : Decidable (ResolutionInvariant st) := by
  unfold ResolutionInvariant
  infer_instance

/-- The collection name visible through the coercing getter: `some` only
when a non-empty string is stored for exactly this class. -/
def registeredCollection (st : OrmState) (c : ClassId) : Option String :=
  match ReflectUtils.get st.store EMetaDataKey.Collection c with
  | some (.str s) => some s
  | _ => none

/-- The outcome of the primary-field scan, as a function of the
accumulator and of the primary-marked sublist. -/
def primaryScanResult (c : ClassId) (acc : Option IUnpackedFieldMeta)
    (prims : List IUnpackedFieldMeta) : Except OrmError IUnpackedFieldMeta :=
  match acc, prims with
  | none, [] => .error (.primaryKeyNotDefined c)
  | none, [p] => .ok p
  | none, p :: f :: _ => .error (.primaryKeyAlreadyDefined c p f)
  | some p, [] => .ok p
  | some p, f :: _ => .error (.primaryKeyAlreadyDefined c p f)

/-! ## Concrete data for witnesses and counterexamples -/

/-- A primary-key descriptor named `id` (`isIdentifier = true`, as the
`Field` declaration site sets it for `id: true`). -/
def dIdEx : IFieldMeta :=
  { classPropertyName := "id"
    dbPropertyName := "_id"
    type := "string"
    isNullable := false
    defaultValue := none
    isIdentifier := true }

/-- A non-primary descriptor also named `id`, declared on a child class. -/
def dIdChild : IFieldMeta :=
  { classPropertyName := "id"
    dbPropertyName := "identifier"
    type := "number"
    isNullable := true
    defaultValue := none
    isIdentifier := false }

/-- A second descriptor named `id`, conflicting with `dIdEx`. -/
def dIdDup : IFieldMeta :=
  { classPropertyName := "id"
    dbPropertyName := "id"
    type := "string"
    isNullable := true
    defaultValue := none
    isIdentifier := false }

/-- A second primary-key descriptor (`isIdentifier = true`) with a fresh
property name `key`. -/
def dKeyEx : IFieldMeta :=
  { classPropertyName := "key"
    dbPropertyName := "key"
    type := "string"
    isNullable := false
    defaultValue := none
    isIdentifier := true }

/-- A non-primary descriptor named `name` with a default value. -/
def dNameEx : IFieldMeta :=
  { classPropertyName := "name"
    dbPropertyName := "name"
    type := "string"
    isNullable := true
    defaultValue := some (.str "anon")
    isIdentifier := false }

/-- A non-primary descriptor named `age`. -/
def dAgeEx : IFieldMeta :=
  { classPropertyName := "age"
    dbPropertyName := "age"
    type := "number"
    isNullable := true
    defaultValue := none
    isIdentifier := false }

/-- The trivial hierarchy: every class is a root. -/
def hRoot : Hierarchy := ⟨fun _ => []⟩

/-- Two-class hierarchy: class `1` extends class `0`. -/
def hChain2 : Hierarchy := ⟨fun c => if c = 1 then [0] else []⟩

/-- Three-level hierarchy: class `2` extends class `1` extends class
`0`. -/
def hChain3 : Hierarchy :=
  ⟨fun c => if c = 2 then [1, 0] else if c = 1 then [0] else []⟩

/-- The empty initial state. -/
def stEmpty : OrmState := ⟨[], [], []⟩

/-- A state in which class `0` owns exactly the field `dIdEx`. -/
def stOwn0 : OrmState :=
  ⟨[(0, EMetaDataKey.Fields, MetaValue.fields [dIdEx])], [], []⟩

/-- A state for the three-level chain: class `0` owns `dIdEx`, class `1`
owns `dNameEx`, class `2` owns `dAgeEx`. -/
def stChain3 : OrmState :=
  ⟨[(0, EMetaDataKey.Fields, MetaValue.fields [dIdEx]),
    (1, EMetaDataKey.Fields, MetaValue.fields [dNameEx]),
    (2, EMetaDataKey.Fields, MetaValue.fields [dAgeEx])], [], []⟩

/-- A state in which class `0` owns `dIdEx` and is a model of collection
`users`. -/
def stModel : OrmState := ReflectUtils.defineModel stOwn0 0 "users"

/-- A state in which class `0` owns `dIdEx` and `defineModel` was called
with the empty string as collection name. -/
def stModelEmptyName : OrmState := ReflectUtils.defineModel stOwn0 0 ""

/-! ## General lemmas about the metadata store -/

theorem getMetadata_defineMetadata_same (s : MetaStore) (k : EMetaDataKey)
    (v : MetaValue) (c : ClassId) :
    Reflect.getMetadata (Reflect.defineMetadata s k v c) k c = some v := by
  simp [Reflect.getMetadata, Reflect.defineMetadata]

theorem getMetadata_defineMetadata_other (s : MetaStore) (k k' : EMetaDataKey)
    (v : MetaValue) (c c' : ClassId) (hne : ¬(c = c' ∧ k = k')) :
    Reflect.getMetadata (Reflect.defineMetadata s k v c) k' c' =
      Reflect.getMetadata s k' c' := by
  simp only [Reflect.getMetadata, Reflect.defineMetadata, if_neg hne]

theorem get_eq_some_getMetadata {s : MetaStore} {k : EMetaDataKey}
    {c : ClassId} {v : MetaValue} (hv : ReflectUtils.get s k c = some v) :
    Reflect.getMetadata s k c = some v := by
  unfold ReflectUtils.get at hv
  cases heq : Reflect.getMetadata s k c with
  | none => rw [heq] at hv; exact absurd hv (by simp)
  | some w =>
      simp only [heq] at hv
      split at hv
      · exact hv
      · exact absurd hv (by simp)

theorem getMetadata_applyOps {ops : List SetOp} {s : MetaStore}
    {k : EMetaDataKey} {c : ClassId} {v : MetaValue}
    (hv : Reflect.getMetadata (applyOps s ops) k c = some v) :
    Reflect.getMetadata s k c = some v ∨
      ∃ op ∈ ops, op.target = c ∧ op.key = k ∧ op.value = v := by
  induction ops generalizing s with
  | nil => exact Or.inl hv
  | cons op rest ih =>
      rcases ih (s := ReflectUtils.set s op.key op.value op.target) hv with
        h | ⟨op', hmem, h1, h2, h3⟩
      · by_cases hc : op.target = c ∧ op.key = k
        · refine Or.inr ⟨op, List.mem_cons_self op rest, hc.1, hc.2, ?_⟩
          have : Reflect.getMetadata (ReflectUtils.set s op.key op.value op.target) k c
              = some op.value := by
            obtain ⟨hc1, hc2⟩ := hc
            subst hc1; subst hc2
            exact getMetadata_defineMetadata_same s op.key op.value op.target
          rw [this] at h
          exact Option.some.inj h
        · left
          rw [← h]
          exact (getMetadata_defineMetadata_other s op.key k op.value op.target c hc).symm
      · exact Or.inr ⟨op', List.mem_cons_of_mem op hmem, h1, h2, h3⟩

/-! ## Claim C1 -/

/-- Claim C1: for every class `c` and metadata kind `k`, starting from an
empty store, `get`/`has` report a value for `(k, c)` only if some `set` in
the performed sequence targeted exactly class `c` with kind `k` (a value
stored on an ancestor is not visible through `get`/`has` on `c` itself),
and `getOwnFields c` returns only descriptors from lists stored on exactly
`c` under the `Fields` kind. -/
theorem c1_metadata_scoped_per_exact_class (ops : List SetOp)
    (k : EMetaDataKey) (c : ClassId) :
    (ReflectUtils.has (applyOps [] ops) k c = true →
      ∃ op ∈ ops, op.target = c ∧ op.key = k) ∧
    ((ReflectUtils.get (applyOps [] ops) k c).isSome = true →
      ∃ op ∈ ops, op.target = c ∧ op.key = k) ∧
    (∀ d ∈ ReflectUtils.getOwnFields (applyOps [] ops) c,
      ∃ op ∈ ops, op.target = c ∧ op.key = EMetaDataKey.Fields ∧
        ∃ l, op.value = MetaValue.fields l ∧ d ∈ l) := by
  refine ⟨?_, ?_, ?_⟩
  · intro hhas
    unfold ReflectUtils.has Reflect.hasMetadata at hhas
    rcases Option.isSome_iff_exists.mp hhas with ⟨v, hv⟩
    rcases getMetadata_applyOps hv with h | ⟨op, hmem, h1, h2, _⟩
    · exact absurd h (by simp [Reflect.getMetadata])
    · exact ⟨op, hmem, h1, h2⟩
  · intro hget
    rcases Option.isSome_iff_exists.mp hget with ⟨v, hv⟩
    rcases getMetadata_applyOps (get_eq_some_getMetadata hv) with
      h | ⟨op, hmem, h1, h2, _⟩
    · exact absurd h (by simp [Reflect.getMetadata])
    · exact ⟨op, hmem, h1, h2⟩
  · intro d hd
    unfold ReflectUtils.getOwnFields at hd
    cases heq : ReflectUtils.get (applyOps [] ops) EMetaDataKey.Fields c with
    | none => rw [heq] at hd; simp at hd
    | some v =>
        rw [heq] at hd
        cases v with
        | fields l =>
            rcases getMetadata_applyOps (get_eq_some_getMetadata heq) with
              h | ⟨op, hmem, h1, h2, h3⟩
            · exact absurd h (by simp [Reflect.getMetadata])
            · exact ⟨op, hmem, h1, h2, l, h3, hd⟩
        | bool b => simp at hd
        | str s => simp at hd
        | objectType t => simp at hd
        | unpacked l => simp at hd

/-- Witness for C1 at a concrete one-write sequence. -/
theorem c1_metadata_scoped_per_exact_class_witness :
    ∃ op ∈ [SetOp.mk 0 EMetaDataKey.Fields (MetaValue.fields [dIdEx])],
      op.target = 0 ∧ op.key = EMetaDataKey.Fields ∧
        ∃ l, op.value = MetaValue.fields l ∧ dIdEx ∈ l :=
  (c1_metadata_scoped_per_exact_class
      [SetOp.mk 0 EMetaDataKey.Fields (MetaValue.fields [dIdEx])]
      EMetaDataKey.Fields 0).2.2 dIdEx (by decide)

/-! ## Lemmas about field registration -/

/-- On raw descriptors the primary-key guard of `addOwnField` can never
fire (see `IFieldMeta.isPrimary`), so a conflict is exactly a duplicate
property name. -/
theorem fieldConflict_eq (target : ClassId) (d f : IFieldMeta) :
    ReflectUtils.fieldConflict target d f =
      if f.classPropertyName = d.classPropertyName then
        some (.propertyAlreadyDefined f d)
      else none := by
  simp [ReflectUtils.fieldConflict, IFieldMeta.isPrimary]

theorem foldl_append_flatMap (g : ClassId → List IFieldMeta) :
    ∀ (l : List ClassId) (acc : List IFieldMeta),
      l.foldl (fun a x => a ++ g x) acc = acc ++ l.flatMap g := by
  intro l
  induction l with
  | nil => intro acc; simp
  | cons x xs ih => intro acc; simp [List.foldl_cons, ih, List.flatMap_cons]

/-- `getFields` is the own list followed by the concatenated ancestor own
lists. -/
theorem getFields_eq (h : Hierarchy) (s : MetaStore) (c : ClassId) :
    ReflectUtils.getFields h s c =
      ReflectUtils.getOwnFields s c ++
        (h.ancestors c).flatMap (fun x => ReflectUtils.getOwnFields s x) := by
  simp [ReflectUtils.getFields, constructorChain, List.foldl_cons,
    foldl_append_flatMap]

theorem get_set_same (s : MetaStore) (k : EMetaDataKey) (v : MetaValue)
    (c : ClassId) :
    ReflectUtils.get (ReflectUtils.set s k v c) k c =
      if v.truthy then some v else none := by
  unfold ReflectUtils.get ReflectUtils.set
  rw [getMetadata_defineMetadata_same]

theorem get_set_other (s : MetaStore) (k k' : EMetaDataKey) (v : MetaValue)
    (c c' : ClassId) (hne : ¬(c = c' ∧ k = k')) :
    ReflectUtils.get (ReflectUtils.set s k v c) k' c' =
      ReflectUtils.get s k' c' := by
  unfold ReflectUtils.get ReflectUtils.set
  rw [getMetadata_defineMetadata_other _ _ _ _ _ _ hne]

theorem getOwnFields_set_fields_same (s : MetaStore) (l : List IFieldMeta)
    (c : ClassId) :
    ReflectUtils.getOwnFields
      (ReflectUtils.set s EMetaDataKey.Fields (.fields l) c) c = l := by
  unfold ReflectUtils.getOwnFields
  rw [get_set_same]
  simp [MetaValue.truthy]

theorem getOwnFields_set_other (s : MetaStore) (k : EMetaDataKey)
    (v : MetaValue) (c c' : ClassId) (hne : ¬(c = c' ∧ k = EMetaDataKey.Fields)) :
    ReflectUtils.getOwnFields (ReflectUtils.set s k v c) c' =
      ReflectUtils.getOwnFields s c' := by
  unfold ReflectUtils.getOwnFields
  rw [get_set_other _ _ _ _ _ _ hne]

/-- A successful `addOwnField` call: no descriptor on the full inherited
list shares the incoming property name, so the descriptor is appended to
the own list and nothing else changes. -/
theorem addOwnField_ok (h : Hierarchy) (st : OrmState) (c : ClassId)
    (d : IFieldMeta)
    (hnone : ∀ f ∈ ReflectUtils.getFields h st.store c,
      f.classPropertyName ≠ d.classPropertyName) :
    ReflectUtils.addOwnField h st c d =
      (.ok (),
        { st with
            store := ReflectUtils.set st.store EMetaDataKey.Fields
              (.fields (ReflectUtils.getOwnFields st.store c ++ [d])) c }) := by
  unfold ReflectUtils.addOwnField
  have hfind : (ReflectUtils.getFields h st.store c).findSome?
      (ReflectUtils.fieldConflict c d) = none := by
    rw [List.findSome?_eq_none_iff]
    intro f hf
    rw [fieldConflict_eq]
    exact if_neg (hnone f hf)
  simp only [hfind]

/-- A failing `addOwnField` call: the scan stops at the first descriptor
sharing the property name and throws `PropertyAlreadyDefinedError` with
both descriptors; the state is untouched. -/
theorem addOwnField_error (h : Hierarchy) (st : OrmState) (c : ClassId)
    (d : IFieldMeta) (e : OrmError)
    (hfind : (ReflectUtils.getFields h st.store c).findSome?
      (ReflectUtils.fieldConflict c d) = some e) :
    ReflectUtils.addOwnField h st c d = (.error e, st) := by
  unfold ReflectUtils.addOwnField
  simp only [hfind]

/-- In a list of descriptors with pairwise-distinct property names, the
conflict scan for a name that some member carries returns exactly that
member as the previous field. -/
theorem findSome?_conflict_of_mem (c : ClassId) (d : IFieldMeta) :
    ∀ (l : List IFieldMeta) (f₀ : IFieldMeta), f₀ ∈ l →
      f₀.classPropertyName = d.classPropertyName →
      l.Pairwise (fun a b => a.classPropertyName ≠ b.classPropertyName) →
      l.findSome? (ReflectUtils.fieldConflict c d) =
        some (.propertyAlreadyDefined f₀ d) := by
  intro l
  induction l with
  | nil => intro f₀ hmem; exact absurd hmem (List.not_mem_nil f₀)
  | cons g gs ih =>
      intro f₀ hmem hname hpw
      rw [List.findSome?_cons]
      rcases List.mem_cons.mp hmem with hg | hgs
      · subst hg
        rw [fieldConflict_eq, if_pos hname]
      · have hgname : g.classPropertyName ≠ d.classPropertyName := by
          rw [← hname]
          exact (List.pairwise_cons.mp hpw).1 f₀ hgs
        rw [fieldConflict_eq, if_neg hgname]
        exact ih f₀ hgs hname (List.pairwise_cons.mp hpw).2

/-- Running a prefix of calls successfully, then the rest. -/
theorem addOwnFieldSeq_append (h : Hierarchy) (c : ClassId) :
    ∀ (pre rest : List IFieldMeta) (st st₁ : OrmState),
      ReflectUtils.addOwnFieldSeq h st c pre = (.ok (), st₁) →
      ReflectUtils.addOwnFieldSeq h st c (pre ++ rest) =
        ReflectUtils.addOwnFieldSeq h st₁ c rest := by
  intro pre
  induction pre with
  | nil =>
      intro rest st st₁ hok
      have hst : st = st₁ := by
        simpa [ReflectUtils.addOwnFieldSeq] using hok
      rw [List.nil_append, hst]
  | cons d ds ih =>
      intro rest st st₁ hok
      cases hcall : ReflectUtils.addOwnField h st c d with
      | mk res st' =>
          cases res with
          | ok u =>
              have h1 : ReflectUtils.addOwnFieldSeq h st c (d :: ds) =
                  ReflectUtils.addOwnFieldSeq h st' c ds := by
                simp [ReflectUtils.addOwnFieldSeq, hcall]
              have h2 : ReflectUtils.addOwnFieldSeq h st c ((d :: ds) ++ rest) =
                  ReflectUtils.addOwnFieldSeq h st' c (ds ++ rest) := by
                simp [ReflectUtils.addOwnFieldSeq, hcall]
              rw [h2, ih rest st' st₁ (h1 ▸ hok)]
          | error e =>
              have h1 : ReflectUtils.addOwnFieldSeq h st c (d :: ds) =
                  (.error e, st') := by
                simp [ReflectUtils.addOwnFieldSeq, hcall]
              rw [h1] at hok
              simp at hok

/-- Main induction for C2: a sequence of pairwise-fresh descriptors, each
also fresh with respect to the initial inherited list, all succeed,
appending to the own list in call order; ancestor metadata, the ghost log
and the prototype are untouched.  (`hcyc`: a class is not its own
ancestor.) -/
theorem addOwnFieldSeq_ok (h : Hierarchy) (c : ClassId)
    (hcyc : c ∉ h.ancestors c) :
    ∀ (ds : List IFieldMeta) (st : OrmState),
      (∀ d ∈ ds, ∀ f ∈ ReflectUtils.getFields h st.store c,
        f.classPropertyName ≠ d.classPropertyName) →
      ds.Pairwise (fun a b => a.classPropertyName ≠ b.classPropertyName) →
      ∃ st' : OrmState,
        ReflectUtils.addOwnFieldSeq h st c ds = (.ok (), st') ∧
        ReflectUtils.getOwnFields st'.store c =
          ReflectUtils.getOwnFields st.store c ++ ds ∧
        (∀ c' : ClassId, c' ≠ c →
          ReflectUtils.getOwnFields st'.store c' =
            ReflectUtils.getOwnFields st.store c') ∧
        st'.resolutionLog = st.resolutionLog ∧
        st'.protoProps = st.protoProps := by
  intro ds
  induction ds with
  | nil =>
      intro st _ _
      exact ⟨st, rfl, by simp, fun c' _ => rfl, rfl, rfl⟩
  | cons d ds ih =>
      intro st hfresh hpw
      have hd : ∀ f ∈ ReflectUtils.getFields h st.store c,
          f.classPropertyName ≠ d.classPropertyName :=
        hfresh d (List.mem_cons_self d ds)
      have hok := addOwnField_ok h st c d hd
      set st₁ : OrmState :=
        { st with
            store := ReflectUtils.set st.store EMetaDataKey.Fields
              (.fields (ReflectUtils.getOwnFields st.store c ++ [d])) c } with hst₁
      have hown₁ : ReflectUtils.getOwnFields st₁.store c =
          ReflectUtils.getOwnFields st.store c ++ [d] :=
        getOwnFields_set_fields_same st.store _ c
      have hother₁ : ∀ c' : ClassId, c' ≠ c →
          ReflectUtils.getOwnFields st₁.store c' =
            ReflectUtils.getOwnFields st.store c' := by
        intro c' hne
        exact getOwnFields_set_other st.store _ _ c c'
          (fun hcontra => hne hcontra.1.symm)
      have hflat₁ : (h.ancestors c).flatMap
            (fun x => ReflectUtils.getOwnFields st₁.store x) =
          (h.ancestors c).flatMap
            (fun x => ReflectUtils.getOwnFields st.store x) := by
        apply List.flatMap_congr
        intro x hx
        exact hother₁ x (fun hxc => hcyc (hxc ▸ hx))
      have hfields₁ : ReflectUtils.getFields h st₁.store c =
          (ReflectUtils.getOwnFields st.store c ++ [d]) ++
            (h.ancestors c).flatMap
              (fun x => ReflectUtils.getOwnFields st.store x) := by
        rw [getFields_eq, hown₁, hflat₁]
      have hmem₁ : ∀ f ∈ ReflectUtils.getFields h st₁.store c,
          f ∈ ReflectUtils.getFields h st.store c ∨ f = d := by
        intro f hf
        rw [hfields₁] at hf
        rcases List.mem_append.mp hf with hf | hf
        · rcases List.mem_append.mp hf with hf | hf
          · exact Or.inl (by rw [getFields_eq]; exact List.mem_append.mpr (Or.inl hf))
          · exact Or.inr (List.mem_singleton.mp hf)
        · exact Or.inl (by rw [getFields_eq]; exact List.mem_append.mpr (Or.inr hf))
      have hfresh₁ : ∀ d' ∈ ds, ∀ f ∈ ReflectUtils.getFields h st₁.store c,
          f.classPropertyName ≠ d'.classPropertyName := by
        intro d' hd' f hf
        rcases hmem₁ f hf with hf | hf
        · exact hfresh d' (List.mem_cons_of_mem d hd') f hf
        · subst hf
          exact (List.pairwise_cons.mp hpw).1 d' hd'
      rcases ih st₁ hfresh₁ (List.pairwise_cons.mp hpw).2 with
        ⟨st', hseq, hown', hother', hlog', hprops'⟩
      refine ⟨st', ?_, ?_, ?_, ?_, ?_⟩
      · have hstep : ReflectUtils.addOwnFieldSeq h st c (d :: ds) =
            ReflectUtils.addOwnFieldSeq h st₁ c ds := by
          simp [ReflectUtils.addOwnFieldSeq, hok]
        rw [hstep]
        exact hseq
      · rw [hown', hown₁]; simp
      · intro c' hne; rw [hother' c' hne, hother₁ c' hne]
      · rw [hlog']
      · rw [hprops']

/-! ## Claim C2 -/

/-- Counterexample for C2: class `1` extends class `0`; class `0` owns a
field named `id`; class `1`'s own field list is empty, yet registering a
field named `id` on class `1` fails with `PropertyAlreadyDefinedError` —
the duplicate-name check consults the inherited list, not only the class's
own list. -/
theorem c2_duplicate_check_inherited_counterexample :
    ReflectUtils.getOwnFields stOwn0.store 1 = [] ∧
    (ReflectUtils.addOwnField hChain2 stOwn0 1 dIdChild).1 =
      .error (.propertyAlreadyDefined dIdEx dIdChild) :=
  ⟨rfl, rfl⟩

/-- Claim C2 (amended): the duplicate-name check consults the full
inherited field list (`getFields`), not only the class's own list.  For a
class whose own list starts empty and whose inherited fields do not clash
with the registered sequence: if the sequence's property names are
pairwise distinct, every call succeeds and the class's own stored field
list afterwards equals the sequence in call order; and if a later
descriptor repeats the name of an earlier one (the earlier part being
otherwise duplicate-free), the call registering the repeating descriptor
fails with `PropertyAlreadyDefinedError` carrying the earlier descriptor
and the repeating one. -/
theorem c2_addOwnField_sequence_amended (h : Hierarchy) (st : OrmState)
    (c : ClassId) (hcyc : c ∉ h.ancestors c)
    (hown : ReflectUtils.getOwnFields st.store c = []) :
    (∀ ds : List IFieldMeta,
      (∀ d ∈ ds, ∀ f ∈ ReflectUtils.getFields h st.store c,
        f.classPropertyName ≠ d.classPropertyName) →
      ds.Pairwise (fun a b => a.classPropertyName ≠ b.classPropertyName) →
      ∃ st', ReflectUtils.addOwnFieldSeq h st c ds = (.ok (), st') ∧
        ReflectUtils.getOwnFields st'.store c = ds) ∧
    (∀ (pre : List IFieldMeta) (d' : IFieldMeta) (suf : List IFieldMeta)
        (f₀ : IFieldMeta),
      (∀ d ∈ pre, ∀ f ∈ ReflectUtils.getFields h st.store c,
        f.classPropertyName ≠ d.classPropertyName) →
      (∀ f ∈ ReflectUtils.getFields h st.store c,
        f.classPropertyName ≠ d'.classPropertyName) →
      pre.Pairwise (fun a b => a.classPropertyName ≠ b.classPropertyName) →
      f₀ ∈ pre → f₀.classPropertyName = d'.classPropertyName →
      ∃ st', ReflectUtils.addOwnFieldSeq h st c (pre ++ d' :: suf) =
        (.error (.propertyAlreadyDefined f₀ d'), st')) := by
  constructor
  · intro ds hfresh hpw
    rcases addOwnFieldSeq_ok h c hcyc ds st hfresh hpw with
      ⟨st', hseq, hown', _, _, _⟩
    exact ⟨st', hseq, by rw [hown', hown]; simp⟩
  · intro pre d' suf f₀ hfreshPre hfreshD hpw hmem hname
    rcases addOwnFieldSeq_ok h c hcyc pre st hfreshPre hpw with
      ⟨st₁, hseq, hown₁, hother₁, _, _⟩
    refine ⟨st₁, ?_⟩
    rw [addOwnFieldSeq_append h c pre (d' :: suf) st st₁ hseq]
    have hflat₁ : (h.ancestors c).flatMap
          (fun x => ReflectUtils.getOwnFields st₁.store x) =
        (h.ancestors c).flatMap
          (fun x => ReflectUtils.getOwnFields st.store x) := by
      apply List.flatMap_congr
      intro x hx
      exact hother₁ x (fun hxc => hcyc (hxc ▸ hx))
    have hfields₁ : ReflectUtils.getFields h st₁.store c =
        pre ++ (h.ancestors c).flatMap
          (fun x => ReflectUtils.getOwnFields st.store x) := by
      rw [getFields_eq, hown₁, hown, hflat₁]
      simp
    have hfind : (ReflectUtils.getFields h st₁.store c).findSome?
        (ReflectUtils.fieldConflict c d') =
          some (.propertyAlreadyDefined f₀ d') := by
      rw [hfields₁, List.findSome?_append,
        findSome?_conflict_of_mem c d' pre f₀ hmem hname hpw]
      rfl
    have herr := addOwnField_error h st₁ c d' _ hfind
    simp [ReflectUtils.addOwnFieldSeq, herr]

/-- Witness for the amended C2: registering `id` twice on a fresh root
class fails at the second call with both descriptors. -/
theorem c2_addOwnField_sequence_amended_witness :
    ∃ st', ReflectUtils.addOwnFieldSeq hRoot stEmpty 0 ([dIdEx] ++ dIdDup :: []) =
      (.error (.propertyAlreadyDefined dIdEx dIdDup), st') :=
  (c2_addOwnField_sequence_amended hRoot stEmpty 0 (by decide) (by decide)).2
    [dIdEx] dIdDup [] dIdEx (by decide) (by decide) (by decide) (by decide)
    (by decide)

/-! ## Lemmas about field resolution -/

theorem cachedUnpackedFields_congr (st st' : OrmState) (x : ClassId)
    (hm : Reflect.getMetadata st'.store EMetaDataKey.UnpackedFields x =
      Reflect.getMetadata st.store EMetaDataKey.UnpackedFields x) :
    cachedUnpackedFields st' x = cachedUnpackedFields st x := by
  unfold cachedUnpackedFields ReflectUtils.get
  rw [hm]

theorem getUnpackedOwnFields_cached (st : OrmState) (x : ClassId)
    (l : List IUnpackedFieldMeta) (hc : cachedUnpackedFields st x = some l) :
    ReflectUtils.getUnpackedOwnFields st x = (l, st) := by
  unfold cachedUnpackedFields at hc
  unfold ReflectUtils.getUnpackedOwnFields
  cases hval : ReflectUtils.get st.store EMetaDataKey.UnpackedFields x with
  | none => rw [hval] at hc; simp at hc
  | some v =>
      rw [hval] at hc
      cases v with
      | unpacked l' =>
          simp at hc
          subst hc
          simp
      | bool b => simp at hc
      | str s => simp at hc
      | objectType t => simp at hc
      | fields lf => simp at hc

theorem getUnpackedOwnFields_uncached (st : OrmState) (x : ClassId)
    (hc : cachedUnpackedFields st x = none) :
    ReflectUtils.getUnpackedOwnFields st x =
      ((ReflectUtils.getOwnFields st.store x).map unpackField,
        { st with
            store := ReflectUtils.set st.store EMetaDataKey.UnpackedFields
              (.unpacked ((ReflectUtils.getOwnFields st.store x).map unpackField)) x
            resolutionLog := st.resolutionLog ++ [x] }) := by
  unfold cachedUnpackedFields at hc
  unfold ReflectUtils.getUnpackedOwnFields
  cases hval : ReflectUtils.get st.store EMetaDataKey.UnpackedFields x with
  | none => simp [hval]
  | some v =>
      rw [hval] at hc
      cases v with
      | unpacked l' => simp at hc
      | bool b => simp [hval]
      | str s => simp [hval]
      | objectType t => simp [hval]
      | fields lf => simp [hval]

/-- Frame of one resolution step: only the `(x, UnpackedFields)` binding
can change, and the prototype is untouched. -/
theorem getUnpackedOwnFields_frame (st : OrmState) (x : ClassId) :
    (∀ (c' : ClassId) (k : EMetaDataKey), ¬(c' = x ∧ k = EMetaDataKey.UnpackedFields) →
      Reflect.getMetadata (ReflectUtils.getUnpackedOwnFields st x).2.store k c' =
        Reflect.getMetadata st.store k c') ∧
    (ReflectUtils.getUnpackedOwnFields st x).2.protoProps = st.protoProps := by
  cases hc : cachedUnpackedFields st x with
  | some l =>
      rw [getUnpackedOwnFields_cached st x l hc]
      exact ⟨fun _ _ _ => rfl, rfl⟩
  | none =>
      rw [getUnpackedOwnFields_uncached st x hc]
      refine ⟨?_, rfl⟩
      intro c' k hne
      exact getMetadata_defineMetadata_other _ _ _ _ _ _
        (fun hp => hne ⟨hp.1.symm, hp.2.symm⟩)

/-- After one resolution step the class's cache holds exactly the returned
list. -/
theorem getUnpackedOwnFields_post (st : OrmState) (x : ClassId) :
    cachedUnpackedFields (ReflectUtils.getUnpackedOwnFields st x).2 x =
      some (ReflectUtils.getUnpackedOwnFields st x).1 := by
  cases hc : cachedUnpackedFields st x with
  | some l => rw [getUnpackedOwnFields_cached st x l hc]; exact hc
  | none =>
      rw [getUnpackedOwnFields_uncached st x hc]
      unfold cachedUnpackedFields
      rw [get_set_same]
      simp [MetaValue.truthy]

/-- Resolution never touches the raw field lists. -/
theorem getOwnFields_getUnpackedOwnFields (st : OrmState) (x y : ClassId) :
    ReflectUtils.getOwnFields (ReflectUtils.getUnpackedOwnFields st x).2.store y =
      ReflectUtils.getOwnFields st.store y := by
  have hm := (getUnpackedOwnFields_frame st x).1 y EMetaDataKey.Fields (by simp)
  unfold ReflectUtils.getOwnFields ReflectUtils.get
  rw [hm]

/-- The returned resolved list only depends on the class's cache entry and
raw field list. -/
theorem getUnpackedOwnFields_result_congr (st st' : OrmState) (y : ClassId)
    (h1 : cachedUnpackedFields st' y = cachedUnpackedFields st y)
    (h2 : ReflectUtils.getOwnFields st'.store y = ReflectUtils.getOwnFields st.store y) :
    (ReflectUtils.getUnpackedOwnFields st' y).1 =
      (ReflectUtils.getUnpackedOwnFields st y).1 := by
  cases hc : cachedUnpackedFields st y with
  | some l =>
      rw [getUnpackedOwnFields_cached st y l hc,
        getUnpackedOwnFields_cached st' y l (h1.trans hc)]
  | none =>
      rw [getUnpackedOwnFields_uncached st y hc,
        getUnpackedOwnFields_uncached st' y (h1.trans hc), h2]

/-- A cache entry survives any further resolution work. -/
theorem unpackedFieldsLoop_preserves_cache :
    ∀ (cs : List ClassId) (st : OrmState) (x : ClassId)
      (l : List IUnpackedFieldMeta),
      cachedUnpackedFields st x = some l →
      cachedUnpackedFields (ReflectUtils.unpackedFieldsLoop st cs).2 x = some l := by
  intro cs
  induction cs with
  | nil => intro st x l hx; simpa [ReflectUtils.unpackedFieldsLoop] using hx
  | cons y rest ih =>
      intro st x l hx
      cases hy : ReflectUtils.getUnpackedOwnFields st y with
      | mk own1 st1 =>
          cases hrest : ReflectUtils.unpackedFieldsLoop st1 rest with
          | mk tail1 st2 =>
              have hloop : ReflectUtils.unpackedFieldsLoop st (y :: rest) =
                  (own1 ++ tail1, st2) := by
                simp [ReflectUtils.unpackedFieldsLoop, hy, hrest]
              rw [hloop]
              have hx1 : cachedUnpackedFields st1 x = some l := by
                by_cases hyx : y = x
                · subst hyx
                  rw [getUnpackedOwnFields_cached st y l hx] at hy
                  cases hy
                  exact hx
                · have hm := (getUnpackedOwnFields_frame st y).1 x
                    EMetaDataKey.UnpackedFields (fun hp => hyx hp.1.symm)
                  rw [hy] at hm
                  rw [cachedUnpackedFields_congr st st1 x hm]
                  exact hx
              have := ih st1 x l hx1
              rw [hrest] at this
              exact this

/-- Second runs of the resolution loop are identity: same lists, same
state. -/
theorem unpackedFieldsLoop_idem :
    ∀ (cs : List ClassId) (st : OrmState),
      ReflectUtils.unpackedFieldsLoop
          (ReflectUtils.unpackedFieldsLoop st cs).2 cs =
        ((ReflectUtils.unpackedFieldsLoop st cs).1,
          (ReflectUtils.unpackedFieldsLoop st cs).2) := by
  intro cs
  induction cs with
  | nil => intro st; simp [ReflectUtils.unpackedFieldsLoop]
  | cons y rest ih =>
      intro st
      cases hy : ReflectUtils.getUnpackedOwnFields st y with
      | mk own1 st1 =>
          cases hrest : ReflectUtils.unpackedFieldsLoop st1 rest with
          | mk tail1 st2 =>
              have hloop : ReflectUtils.unpackedFieldsLoop st (y :: rest) =
                  (own1 ++ tail1, st2) := by
                simp [ReflectUtils.unpackedFieldsLoop, hy, hrest]
              rw [hloop]
              have hpost : cachedUnpackedFields st1 y = some own1 := by
                have := getUnpackedOwnFields_post st y
                rw [hy] at this
                exact this
              have hcache2 : cachedUnpackedFields st2 y = some own1 := by
                have := unpackedFieldsLoop_preserves_cache rest st1 y own1 hpost
                rw [hrest] at this
                exact this
              have hy2 : ReflectUtils.getUnpackedOwnFields st2 y = (own1, st2) :=
                getUnpackedOwnFields_cached st2 y own1 hcache2
              have hrest2 : ReflectUtils.unpackedFieldsLoop st2 rest = (tail1, st2) := by
                have := ih st1
                rw [hrest] at this
                exact this
              simp [ReflectUtils.unpackedFieldsLoop, hy2, hrest2]

theorem getUnpackedOwnFields_invariant (st : OrmState) (x : ClassId)
    (hinv : ResolutionInvariant st) :
    ResolutionInvariant (ReflectUtils.getUnpackedOwnFields st x).2 := by
  cases hc : cachedUnpackedFields st x with
  | some l => rw [getUnpackedOwnFields_cached st x l hc]; exact hinv
  | none =>
      rw [getUnpackedOwnFields_uncached st x hc]
      have hxnot : x ∉ st.resolutionLog := by
        intro hmem
        have := hinv.2 x hmem
        rw [hc] at this
        simp at this
      constructor
      · simp [List.nodup_append, hinv.1, hxnot]
      · intro y hy
        rcases List.mem_append.mp hy with hylog | hyx
        · have hcached := hinv.2 y hylog
          have hyx : y ≠ x := by
            intro he
            rw [he, hc] at hcached
            simp at hcached
          have hm : Reflect.getMetadata
              (ReflectUtils.set st.store EMetaDataKey.UnpackedFields
                (.unpacked ((ReflectUtils.getOwnFields st.store x).map unpackField)) x)
              EMetaDataKey.UnpackedFields y =
              Reflect.getMetadata st.store EMetaDataKey.UnpackedFields y :=
            getMetadata_defineMetadata_other _ _ _ _ _ _
              (fun hp => hyx hp.1.symm)
          have hcc : cachedUnpackedFields
              { st with
                  store := ReflectUtils.set st.store EMetaDataKey.UnpackedFields
                    (.unpacked ((ReflectUtils.getOwnFields st.store x).map unpackField)) x
                  resolutionLog := st.resolutionLog ++ [x] } y =
              cachedUnpackedFields st y :=
            cachedUnpackedFields_congr _ _ y hm
          rw [hcc]
          exact hcached
        · have hxy : y = x := List.mem_singleton.mp hyx
          subst hxy
          unfold cachedUnpackedFields
          rw [get_set_same]
          simp [MetaValue.truthy]

theorem unpackedFieldsLoop_invariant :
    ∀ (cs : List ClassId) (st : OrmState), ResolutionInvariant st →
      ResolutionInvariant (ReflectUtils.unpackedFieldsLoop st cs).2 := by
  intro cs
  induction cs with
  | nil => intro st hinv; simpa [ReflectUtils.unpackedFieldsLoop] using hinv
  | cons y rest ih =>
      intro st hinv
      cases hy : ReflectUtils.getUnpackedOwnFields st y with
      | mk own1 st1 =>
          cases hrest : ReflectUtils.unpackedFieldsLoop st1 rest with
          | mk tail1 st2 =>
              have hloop : ReflectUtils.unpackedFieldsLoop st (y :: rest) =
                  (own1 ++ tail1, st2) := by
                simp [ReflectUtils.unpackedFieldsLoop, hy, hrest]
              rw [hloop]
              have h1 := getUnpackedOwnFields_invariant st y hinv
              rw [hy] at h1
              have := ih st1 h1
              rw [hrest] at this
              exact this

/-! ## Claim C6 -/

/-- Claim C6: for a three-level chain `a ← b ← c` of distinct classes
declaring disjoint fields, `getUnpackedFields c` returns `c`'s resolved
own fields, then `b`'s, then `a`'s — most-derived class first, each
class's own declaration order preserved (the own resolved lists being what
`getUnpackedOwnFields` yields on the starting state). -/
theorem c6_unpacked_fields_order (h : Hierarchy) (st : OrmState)
    (a b c : ClassId) (hchain : h.ancestors c = [b, a])
    (hab : a ≠ b) (hac : a ≠ c) (hbc : b ≠ c)
    (hdisj : (ReflectUtils.getFields h st.store c).Pairwise
      (fun f g => f.classPropertyName ≠ g.classPropertyName)) :
    (ReflectUtils.getUnpackedFields h st c).1 =
      (ReflectUtils.getUnpackedOwnFields st c).1 ++
        (ReflectUtils.getUnpackedOwnFields st b).1 ++
        (ReflectUtils.getUnpackedOwnFields st a).1 := by
  clear hdisj
  have hseq : constructorChain h c = [c, b, a] := by
    rw [constructorChain, hchain]
  unfold ReflectUtils.getUnpackedFields
  rw [hseq]
  cases hc1 : ReflectUtils.getUnpackedOwnFields st c with
  | mk lc st1 =>
      cases hb1 : ReflectUtils.getUnpackedOwnFields st1 b with
      | mk lb st2 =>
          cases ha1 : ReflectUtils.getUnpackedOwnFields st2 a with
          | mk la st3 =>
              have e1 : ReflectUtils.unpackedFieldsLoop st [c, b, a] =
                  (lc ++ (lb ++ la), st3) := by
                simp [ReflectUtils.unpackedFieldsLoop, hc1, hb1, ha1]
              have r1 : (ReflectUtils.getUnpackedOwnFields st c).1 = lc := by
                rw [hc1]
              have hmb : Reflect.getMetadata st1.store
                  EMetaDataKey.UnpackedFields b =
                  Reflect.getMetadata st.store EMetaDataKey.UnpackedFields b := by
                have hm := (getUnpackedOwnFields_frame st c).1 b
                  EMetaDataKey.UnpackedFields (fun hp => hbc hp.1)
                rw [hc1] at hm
                exact hm
              have hob : ReflectUtils.getOwnFields st1.store b =
                  ReflectUtils.getOwnFields st.store b := by
                have := getOwnFields_getUnpackedOwnFields st c b
                rw [hc1] at this
                exact this
              have r2 : (ReflectUtils.getUnpackedOwnFields st b).1 = lb := by
                have := getUnpackedOwnFields_result_congr st st1 b
                  (cachedUnpackedFields_congr st st1 b hmb) hob
                rw [hb1] at this
                exact this.symm
              have hma1 : Reflect.getMetadata st1.store
                  EMetaDataKey.UnpackedFields a =
                  Reflect.getMetadata st.store EMetaDataKey.UnpackedFields a := by
                have hm := (getUnpackedOwnFields_frame st c).1 a
                  EMetaDataKey.UnpackedFields (fun hp => hac hp.1)
                rw [hc1] at hm
                exact hm
              have hma2 : Reflect.getMetadata st2.store
                  EMetaDataKey.UnpackedFields a =
                  Reflect.getMetadata st1.store EMetaDataKey.UnpackedFields a := by
                have hm := (getUnpackedOwnFields_frame st1 b).1 a
                  EMetaDataKey.UnpackedFields (fun hp => hab hp.1)
                rw [hb1] at hm
                exact hm
              have hoa : ReflectUtils.getOwnFields st2.store a =
                  ReflectUtils.getOwnFields st.store a := by
                have h1 := getOwnFields_getUnpackedOwnFields st c a
                rw [hc1] at h1
                have h2 := getOwnFields_getUnpackedOwnFields st1 b a
                rw [hb1] at h2
                rw [h2, h1]
              have r3 : (ReflectUtils.getUnpackedOwnFields st a).1 = la := by
                have := getUnpackedOwnFields_result_congr st st2 a
                  (cachedUnpackedFields_congr st st2 a (hma2.trans hma1)) hoa
                rw [ha1] at this
                exact this.symm
              rw [e1, r2, r3]
              simp [List.append_assoc]

/-- Witness for C6 on the concrete three-level chain. -/
theorem c6_unpacked_fields_order_witness :
    (ReflectUtils.getUnpackedFields hChain3 stChain3 2).1 =
      (ReflectUtils.getUnpackedOwnFields stChain3 2).1 ++
        (ReflectUtils.getUnpackedOwnFields stChain3 1).1 ++
        (ReflectUtils.getUnpackedOwnFields stChain3 0).1 :=
  c6_unpacked_fields_order hChain3 stChain3 0 1 2 (by decide) (by decide)
    (by decide) (by decide) (by decide)

/-! ## Claim C7 -/

/-- Claim C7: resolution is idempotent — a second `getUnpackedFields` call
returns a structurally identical list and leaves the state (in particular
the ghost resolution log, hence the number of `unpackField` executions)
exactly unchanged; and every call preserves the resolution invariant, so
across all calls the mapping runs at most once per class, subsequent calls
being served from the per-class cache. -/
theorem c7_getUnpackedFields_idempotent (h : Hierarchy) (st : OrmState)
    (c : ClassId) :
    (ReflectUtils.getUnpackedFields h
        (ReflectUtils.getUnpackedFields h st c).2 c =
      ((ReflectUtils.getUnpackedFields h st c).1,
        (ReflectUtils.getUnpackedFields h st c).2)) ∧
    (ResolutionInvariant st →
      ResolutionInvariant (ReflectUtils.getUnpackedFields h st c).2) := by
  constructor
  · exact unpackedFieldsLoop_idem (constructorChain h c) st
  · exact fun hinv => unpackedFieldsLoop_invariant (constructorChain h c) st hinv

/-- Witness for C7 at the concrete three-level chain state. -/
theorem c7_getUnpackedFields_idempotent_witness :
    (ReflectUtils.getUnpackedFields hChain3
        (ReflectUtils.getUnpackedFields hChain3 stChain3 2).2 2 =
      ((ReflectUtils.getUnpackedFields hChain3 stChain3 2).1,
        (ReflectUtils.getUnpackedFields hChain3 stChain3 2).2)) ∧
    ResolutionInvariant (ReflectUtils.getUnpackedFields hChain3 stChain3 2).2 :=
  ⟨(c7_getUnpackedFields_idempotent hChain3 stChain3 2).1,
    (c7_getUnpackedFields_idempotent hChain3 stChain3 2).2 (by decide)⟩

/-! ## Claim C3 -/

/-- Claim C3 is violated by the code: class `0` already owns the
primary-key descriptor `dIdEx` (`isIdentifier = true`, as the `Field`
declaration site sets it), and `addOwnField` is called with a second
primary-key descriptor `dKeyEx`.  The source's guard reads `f.isPrimary`,
a property raw descriptors do not carry, so the guard never fires: the
call succeeds and both primary-key descriptors end up registered, instead
of failing with `PrimaryKeyAlreadyDefinedError`. -/
theorem c3_second_primary_key_accepted :
    dIdEx.isIdentifier = true ∧ dKeyEx.isIdentifier = true ∧
    ReflectUtils.getOwnFields stOwn0.store 0 = [dIdEx] ∧
    (ReflectUtils.addOwnField hRoot stOwn0 0 dKeyEx).1 = .ok () ∧
    ReflectUtils.getOwnFields
      (ReflectUtils.addOwnField hRoot stOwn0 0 dKeyEx).2.store 0 =
        [dIdEx, dKeyEx] :=
  ⟨rfl, rfl, rfl, rfl, rfl⟩

/-! ## Claim C4 -/

/-- Claim C4 is violated by the code: class `0` has one resolved field and
accessors have never been applied, yet the first `applyFields` call does
not succeed — the property descriptor it builds carries `get`/`set`
together with `writable: false`, which `Object.defineProperty` rejects with
a `TypeError` — so no accessor property is defined (and the
`AreFieldsApplied` flag is never set either). -/
theorem c4_applyFields_first_call_throws :
    ReflectUtils.areFieldsApplied stOwn0.store 0 = false ∧
    (ReflectUtils.getUnpackedFields hRoot stOwn0 0).1.length = 1 ∧
    (ReflectUtils.applyFields hRoot stOwn0 0).1 =
      .error (.typeError "Invalid property descriptor. Cannot both specify accessors and a value or writable attribute") ∧
    (ReflectUtils.applyFields hRoot stOwn0 0).2.protoProps = [] ∧
    ReflectUtils.get (ReflectUtils.applyFields hRoot stOwn0 0).2.store
      EMetaDataKey.AreFieldsApplied 0 = none :=
  ⟨rfl, rfl, rfl, rfl, rfl⟩

/-! ## Claim C8 -/

theorem areFieldsApplied_set_true (s : MetaStore) (c : ClassId) :
    ReflectUtils.areFieldsApplied
      (ReflectUtils.set s EMetaDataKey.AreFieldsApplied (.bool true) c) c =
        true := by
  unfold ReflectUtils.areFieldsApplied
  rw [get_set_same]
  simp [MetaValue.truthy]

/-- Claim C8: `applyFields` is idempotent under the per-class guard flag —
if an invocation completes successfully, every subsequent invocation
returns successfully with the state exactly unchanged (no prototype
property defined, no metadata written). -/
theorem c8_applyFields_idempotent (h : Hierarchy) (st st₁ : OrmState)
    (c : ClassId)
    (hok : ReflectUtils.applyFields h st c = (.ok (), st₁)) :
    ReflectUtils.applyFields h st₁ c = (.ok (), st₁) := by
  unfold ReflectUtils.applyFields at hok
  by_cases hflag : ReflectUtils.areFieldsApplied st.store c = true
  · rw [if_pos hflag] at hok
    have hst : st = st₁ := by simpa using hok
    subst hst
    unfold ReflectUtils.applyFields
    rw [if_pos hflag]
  · rw [if_neg hflag] at hok
    cases hres : ReflectUtils.getUnpackedFields h st c with
    | mk fields st' =>
        rw [hres] at hok
        cases hloop : ReflectUtils.applyFieldsLoop st' c fields with
        | mk r st'' =>
            simp only [hloop] at hok
            cases r with
            | error e => simp at hok
            | ok u =>
                have hst : ({ st'' with
                    store := ReflectUtils.set st''.store
                      EMetaDataKey.AreFieldsApplied (.bool true) c } : OrmState) =
                      st₁ := by
                  simpa using hok
                subst hst
                unfold ReflectUtils.applyFields
                rw [if_pos (areFieldsApplied_set_true st''.store c)]

/-- Witness for C8: on a class with no fields the first invocation
completes, and the second is the identity. -/
theorem c8_applyFields_idempotent_witness :
    ReflectUtils.applyFields hRoot (ReflectUtils.applyFields hRoot stEmpty 0).2 0 =
      (.ok (), (ReflectUtils.applyFields hRoot stEmpty 0).2) :=
  c8_applyFields_idempotent hRoot stEmpty
    (ReflectUtils.applyFields hRoot stEmpty 0).2 0 rfl

/-! ## Lemmas about model introspection -/

theorem findPrimaryField_eq (c : ClassId) :
    ∀ (fs : List IUnpackedFieldMeta) (acc : Option IUnpackedFieldMeta),
      ReflectUtils.findPrimaryField c acc fs =
        primaryScanResult c acc (fs.filter (fun f => f.isPrimary)) := by
  intro fs
  induction fs with
  | nil => intro acc; cases acc <;> rfl
  | cons g gs ih =>
      intro acc
      by_cases hp : g.isPrimary = true
      · cases acc with
        | none =>
            have lhs : ReflectUtils.findPrimaryField c none (g :: gs) =
                ReflectUtils.findPrimaryField c (some g) gs := by
              simp [ReflectUtils.findPrimaryField, hp]
            rw [lhs, ih (some g)]
            have hfil : (g :: gs).filter (fun f => f.isPrimary) =
                g :: gs.filter (fun f => f.isPrimary) := by
              simp [List.filter_cons, hp]
            rw [hfil]
            cases hgs : gs.filter (fun f => f.isPrimary) with
            | nil => rfl
            | cons f rest => rfl
        | some p =>
            have hfil : (g :: gs).filter (fun f => f.isPrimary) =
                g :: gs.filter (fun f => f.isPrimary) := by
              simp [List.filter_cons, hp]
            rw [hfil]
            simp [ReflectUtils.findPrimaryField, hp, primaryScanResult]
      · have hfil : (g :: gs).filter (fun f => f.isPrimary) =
            gs.filter (fun f => f.isPrimary) := by
          simp [List.filter_cons, hp]
        rw [hfil]
        have lhs : ReflectUtils.findPrimaryField c acc (g :: gs) =
            ReflectUtils.findPrimaryField c acc gs := by
          simp [ReflectUtils.findPrimaryField, hp]
        rw [lhs, ih acc]

/-- Frame of the resolution loop: no key other than `UnpackedFields` ever
changes, and the prototype is untouched. -/
theorem unpackedFieldsLoop_frame :
    ∀ (cs : List ClassId) (st : OrmState),
      (∀ (c' : ClassId) (k : EMetaDataKey), k ≠ EMetaDataKey.UnpackedFields →
        Reflect.getMetadata (ReflectUtils.unpackedFieldsLoop st cs).2.store k c' =
          Reflect.getMetadata st.store k c') ∧
      (ReflectUtils.unpackedFieldsLoop st cs).2.protoProps = st.protoProps := by
  intro cs
  induction cs with
  | nil => intro st; exact ⟨fun _ _ _ => rfl, rfl⟩
  | cons y rest ih =>
      intro st
      cases hy : ReflectUtils.getUnpackedOwnFields st y with
      | mk own1 st1 =>
          cases hrest : ReflectUtils.unpackedFieldsLoop st1 rest with
          | mk tail1 st2 =>
              have hloop : ReflectUtils.unpackedFieldsLoop st (y :: rest) =
                  (own1 ++ tail1, st2) := by
                simp [ReflectUtils.unpackedFieldsLoop, hy, hrest]
              rw [hloop]
              have hstep := getUnpackedOwnFields_frame st y
              rw [hy] at hstep
              have htail := ih st1
              rw [hrest] at htail
              constructor
              · intro c' k hk
                rw [htail.1 c' k hk, hstep.1 c' k (fun hp => hk hp.2)]
              · rw [htail.2, hstep.2]

theorem getUnpackedFields_frame (h : Hierarchy) (st : OrmState) (c : ClassId) :
    (∀ (c' : ClassId) (k : EMetaDataKey), k ≠ EMetaDataKey.UnpackedFields →
      Reflect.getMetadata (ReflectUtils.getUnpackedFields h st c).2.store k c' =
        Reflect.getMetadata st.store k c') ∧
    (ReflectUtils.getUnpackedFields h st c).2.protoProps = st.protoProps :=
  unpackedFieldsLoop_frame (constructorChain h c) st

theorem getUnpackedFields_idem (h : Hierarchy) (st : OrmState) (c : ClassId) :
    ReflectUtils.getUnpackedFields h (ReflectUtils.getUnpackedFields h st c).2 c =
      ((ReflectUtils.getUnpackedFields h st c).1,
        (ReflectUtils.getUnpackedFields h st c).2) :=
  unpackedFieldsLoop_idem (constructorChain h c) st

theorem get_congr {s s' : MetaStore} {k : EMetaDataKey} {c : ClassId}
    (hm : Reflect.getMetadata s' k c = Reflect.getMetadata s k c) :
    ReflectUtils.get s' k c = ReflectUtils.get s k c := by
  unfold ReflectUtils.get
  rw [hm]

theorem getMetadata_set_same (s : MetaStore) (k : EMetaDataKey) (v : MetaValue)
    (c : ClassId) :
    Reflect.getMetadata (ReflectUtils.set s k v c) k c = some v :=
  getMetadata_defineMetadata_same s k v c

theorem getMetadata_set_other (s : MetaStore) (k k' : EMetaDataKey)
    (v : MetaValue) (c c' : ClassId) (hne : ¬(c = c' ∧ k = k')) :
    Reflect.getMetadata (ReflectUtils.set s k v c) k' c' =
      Reflect.getMetadata s k' c' :=
  getMetadata_defineMetadata_other s k k' v c c' hne

/-! ## Claim C5 -/

/-- Counterexample for C5 as stated: class `0` has a registered collection
name (the metadata binding exists), yet `collectModelInformation` fails
with `ModelNotFoundError`, because the registered name is the empty string
and the coercing getter reports it as absent. -/
theorem c5_model_not_found_iff_counterexample :
    ReflectUtils.has stModelEmptyName.store EMetaDataKey.Collection 0 = true ∧
    (ReflectUtils.collectModelInformation hRoot stModelEmptyName 0).1 =
      .error (.modelNotFound 0) :=
  ⟨rfl, rfl⟩

/-- Claim C5 (amended): `collectModelInformation` fails with
`ModelNotFound` iff no truthy (non-empty) collection name is registered
for the class; otherwise fails with `EmptyFieldsList` iff the full
resolved field list is empty; otherwise fails with
`PrimaryKeyAlreadyDefined` iff a second primary-marked field is
encountered, carrying the first two primary fields; fails with
`PrimaryKeyNotDefined` iff no field is primary; and returns
`{collection, primaryField, fields}` iff the registered collection is
`collection`, `fields` is the full resolved list, and exactly one field is
primary, namely `primaryField`. -/
theorem c5_collectModelInformation_amended (h : Hierarchy) (st : OrmState)
    (c : ClassId) :
    ((ReflectUtils.collectModelInformation h st c).1 =
        .error (.modelNotFound c) ↔ registeredCollection st c = none) ∧
    ((ReflectUtils.collectModelInformation h st c).1 =
        .error (.emptyFieldsList c) ↔
      (registeredCollection st c).isSome = true ∧
        (ReflectUtils.getUnpackedFields h st c).1 = []) ∧
    (∀ (p f : IUnpackedFieldMeta),
      (ReflectUtils.collectModelInformation h st c).1 =
          .error (.primaryKeyAlreadyDefined c p f) ↔
        (registeredCollection st c).isSome = true ∧
          ∃ rest, (ReflectUtils.getUnpackedFields h st c).1.filter
            (fun g => g.isPrimary) = p :: f :: rest) ∧
    ((ReflectUtils.collectModelInformation h st c).1 =
        .error (.primaryKeyNotDefined c) ↔
      (registeredCollection st c).isSome = true ∧
        (ReflectUtils.getUnpackedFields h st c).1 ≠ [] ∧
        (ReflectUtils.getUnpackedFields h st c).1.filter
          (fun g => g.isPrimary) = []) ∧
    (∀ info : ReflectUtils.IModelInformation,
      (ReflectUtils.collectModelInformation h st c).1 = .ok info ↔
        registeredCollection st c = some info.collection ∧
          info.fields = (ReflectUtils.getUnpackedFields h st c).1 ∧
          (ReflectUtils.getUnpackedFields h st c).1 ≠ [] ∧
          (ReflectUtils.getUnpackedFields h st c).1.filter
            (fun g => g.isPrimary) = [info.primaryField]) := by
  cases hget : ReflectUtils.get st.store EMetaDataKey.Collection c with
  | none =>
      have hreg : registeredCollection st c = none := by
        simp [registeredCollection, hget]
      have hres : (ReflectUtils.collectModelInformation h st c).1 =
          .error (.modelNotFound c) := by
        simp [ReflectUtils.collectModelInformation, hget]
      simp [hres, hreg]
  | some v =>
      cases v with
      | str col =>
          have hreg : registeredCollection st c = some col := by
            simp [registeredCollection, hget]
          cases hu : ReflectUtils.getUnpackedFields h st c with
          | mk fields st1 =>
              by_cases hlen : fields.length = 0
              · have hnil : fields = [] := List.length_eq_zero.mp hlen
                subst hnil
                have hres : (ReflectUtils.collectModelInformation h st c).1 =
                    .error (.emptyFieldsList c) := by
                  simp [ReflectUtils.collectModelInformation, hget, hu]
                simp [hres, hreg]
              · have hnil : fields ≠ [] := fun he => hlen (by rw [he]; rfl)
                have hfp := findPrimaryField_eq c fields none
                cases hfil : fields.filter (fun g => g.isPrimary) with
                | nil =>
                    rw [hfil] at hfp
                    simp only [primaryScanResult] at hfp
                    have hres : (ReflectUtils.collectModelInformation h st c).1 =
                        .error (.primaryKeyNotDefined c) := by
                      simp [ReflectUtils.collectModelInformation, hget, hu,
                        hlen, hfp]
                    simp [hres, hreg, hfil, hnil]
                | cons p0 rest0 =>
                    cases rest0 with
                    | nil =>
                        rw [hfil] at hfp
                        simp only [primaryScanResult] at hfp
                        have hres : (ReflectUtils.collectModelInformation h st c).1 =
                            .ok ⟨col, p0, fields⟩ := by
                          simp [ReflectUtils.collectModelInformation, hget, hu,
                            hlen, hfp]
                        refine ⟨?_, ?_, ?_, ?_, ?_⟩
                        · simp [hres, hreg]
                        · simp [hres, hreg, hnil]
                        · intro p f; simp [hres, hreg, hfil]
                        · simp [hres, hreg, hfil, hnil]
                        · intro info
                          obtain ⟨icol, ip, ifs⟩ := info
                          constructor
                          · intro hinfo
                            rw [hres] at hinfo
                            injection hinfo with hmk
                            injection hmk with h1 h2 h3
                            subst h1
                            subst h2
                            subst h3
                            dsimp only
                            exact ⟨hreg, rfl, hnil, rfl⟩
                          · rintro ⟨h1, h2, _, h4⟩
                            dsimp only at h1 h2 h4
                            rw [hreg] at h1
                            injection h1 with h1
                            injection h4 with h4 h5
                            subst h1
                            subst h4
                            subst h2
                            rw [hres]
                    | cons f0 rest1 =>
                        rw [hfil] at hfp
                        simp only [primaryScanResult] at hfp
                        have hres : (ReflectUtils.collectModelInformation h st c).1 =
                            .error (.primaryKeyAlreadyDefined c p0 f0) := by
                          simp [ReflectUtils.collectModelInformation, hget, hu,
                            hlen, hfp]
                        refine ⟨?_, ?_, ?_, ?_, ?_⟩
                        · simp [hres, hreg]
                        · simp [hres, hreg, hnil]
                        · intro p f
                          constructor
                          · intro hinfo
                            rw [hres] at hinfo
                            injection hinfo with herr
                            injection herr with h1 h2 h3
                            subst h2
                            subst h3
                            exact ⟨by rw [hreg]; rfl, rest1, rfl⟩
                          · rintro ⟨_, rest, hr⟩
                            injection hr with h1 hr2
                            injection hr2 with h2 hr3
                            subst h1
                            subst h2
                            rw [hres]
                        · simp [hres, hreg, hfil, hnil]
                        · intro info
                          obtain ⟨icol, ip, ifs⟩ := info
                          simp [hres, hreg, hfil]
      | bool b =>
          have hreg : registeredCollection st c = none := by
            simp [registeredCollection, hget]
          have hres : (ReflectUtils.collectModelInformation h st c).1 =
              .error (.modelNotFound c) := by
            simp [ReflectUtils.collectModelInformation, hget]
          simp [hres, hreg]
      | objectType t =>
          have hreg : registeredCollection st c = none := by
            simp [registeredCollection, hget]
          have hres : (ReflectUtils.collectModelInformation h st c).1 =
              .error (.modelNotFound c) := by
            simp [ReflectUtils.collectModelInformation, hget]
          simp [hres, hreg]
      | fields lf =>
          have hreg : registeredCollection st c = none := by
            simp [registeredCollection, hget]
          have hres : (ReflectUtils.collectModelInformation h st c).1 =
              .error (.modelNotFound c) := by
            simp [ReflectUtils.collectModelInformation, hget]
          simp [hres, hreg]
      | unpacked lu =>
          have hreg : registeredCollection st c = none := by
            simp [registeredCollection, hget]
          have hres : (ReflectUtils.collectModelInformation h st c).1 =
              .error (.modelNotFound c) := by
            simp [ReflectUtils.collectModelInformation, hget]
          simp [hres, hreg]

/-- Witness for the amended C5: the concrete one-field model returns its
full view. -/
theorem c5_collectModelInformation_amended_witness :
    (ReflectUtils.collectModelInformation hRoot stModel 0).1 =
      .ok ⟨"users", unpackField dIdEx, [unpackField dIdEx]⟩ :=
  ((c5_collectModelInformation_amended hRoot stModel 0).2.2.2.2
      ⟨"users", unpackField dIdEx, [unpackField dIdEx]⟩).mpr
    ⟨by decide, by decide, by decide, by decide⟩

/-! ## Claim C9 -/

/-- Counterexample for C9: on a fresh model class the resolved-field cache
is absent before `collectModelInformation` and populated after it — the
call is not side-effect-free on per-class metadata. -/
theorem c9_collect_not_read_only_counterexample :
    Reflect.getMetadata stModel.store EMetaDataKey.UnpackedFields 0 = none ∧
    Reflect.getMetadata
      (ReflectUtils.collectModelInformation hRoot stModel 0).2.store
      EMetaDataKey.UnpackedFields 0 = some (.unpacked [unpackField dIdEx]) ∧
    (ReflectUtils.collectModelInformation hRoot stModel 0).2 ≠ stModel :=
  ⟨rfl, rfl, by decide⟩

/-- Claim C9 (amended): the only state effect of `collectModelInformation`
is populating absent per-class resolved-field caches: every metadata kind
other than `UnpackedFields` is left unchanged for every class, the
prototype is untouched, and a repeated call (after the caches are warm)
leaves the state exactly as it was. -/
theorem c9_collect_state_effect_amended (h : Hierarchy) (st : OrmState)
    (c : ClassId) :
    (∀ (c' : ClassId) (k : EMetaDataKey), k ≠ EMetaDataKey.UnpackedFields →
      Reflect.getMetadata
        (ReflectUtils.collectModelInformation h st c).2.store k c' =
          Reflect.getMetadata st.store k c') ∧
    (ReflectUtils.collectModelInformation h st c).2.protoProps =
      st.protoProps ∧
    (ReflectUtils.collectModelInformation h
        (ReflectUtils.collectModelInformation h st c).2 c).2 =
      (ReflectUtils.collectModelInformation h st c).2 := by
  cases hget : ReflectUtils.get st.store EMetaDataKey.Collection c with
  | none =>
      have hstate : (ReflectUtils.collectModelInformation h st c).2 = st := by
        simp [ReflectUtils.collectModelInformation, hget]
      refine ⟨?_, ?_, ?_⟩
      · intro c' k _; rw [hstate]
      · rw [hstate]
      · rw [hstate]; exact hstate
  | some v =>
      cases v with
      | str col =>
          cases hu : ReflectUtils.getUnpackedFields h st c with
          | mk fields st1 =>
              have hstate : (ReflectUtils.collectModelInformation h st c).2 =
                  st1 := by
                by_cases hlen : fields.length = 0
                · simp [ReflectUtils.collectModelInformation, hget, hu, hlen]
                · cases hfp : ReflectUtils.findPrimaryField c none fields with
                  | error e =>
                      simp [ReflectUtils.collectModelInformation, hget, hu,
                        hlen, hfp]
                  | ok p =>
                      simp [ReflectUtils.collectModelInformation, hget, hu,
                        hlen, hfp]
              have hframe := getUnpackedFields_frame h st c
              rw [hu] at hframe
              refine ⟨?_, ?_, ?_⟩
              · intro c' k hk; rw [hstate]; exact hframe.1 c' k hk
              · rw [hstate]; exact hframe.2
              · rw [hstate]
                have hcol1 : ReflectUtils.get st1.store
                    EMetaDataKey.Collection c = some (.str col) := by
                  rw [get_congr (hframe.1 c EMetaDataKey.Collection (by simp))]
                  exact hget
                have hu2 : ReflectUtils.getUnpackedFields h st1 c =
                    (fields, st1) := by
                  have hidem := getUnpackedFields_idem h st c
                  rw [hu] at hidem
                  simpa using hidem
                by_cases hlen : fields.length = 0
                · simp [ReflectUtils.collectModelInformation, hcol1, hu2, hlen]
                · cases hfp : ReflectUtils.findPrimaryField c none fields with
                  | error e =>
                      simp [ReflectUtils.collectModelInformation, hcol1, hu2,
                        hlen, hfp]
                  | ok p =>
                      simp [ReflectUtils.collectModelInformation, hcol1, hu2,
                        hlen, hfp]
      | bool b =>
          have hstate : (ReflectUtils.collectModelInformation h st c).2 = st := by
            simp [ReflectUtils.collectModelInformation, hget]
          exact ⟨fun c' k _ => by rw [hstate], by rw [hstate],
            by rw [hstate]; exact hstate⟩
      | objectType t =>
          have hstate : (ReflectUtils.collectModelInformation h st c).2 = st := by
            simp [ReflectUtils.collectModelInformation, hget]
          exact ⟨fun c' k _ => by rw [hstate], by rw [hstate],
            by rw [hstate]; exact hstate⟩
      | fields lf =>
          have hstate : (ReflectUtils.collectModelInformation h st c).2 = st := by
            simp [ReflectUtils.collectModelInformation, hget]
          exact ⟨fun c' k _ => by rw [hstate], by rw [hstate],
            by rw [hstate]; exact hstate⟩
      | unpacked lu =>
          have hstate : (ReflectUtils.collectModelInformation h st c).2 = st := by
            simp [ReflectUtils.collectModelInformation, hget]
          exact ⟨fun c' k _ => by rw [hstate], by rw [hstate],
            by rw [hstate]; exact hstate⟩

/-- Witness for the amended C9 at the concrete model state. -/
theorem c9_collect_state_effect_amended_witness :
    Reflect.getMetadata
      (ReflectUtils.collectModelInformation hRoot stModel 0).2.store
      EMetaDataKey.Collection 0 =
        Reflect.getMetadata stModel.store EMetaDataKey.Collection 0 :=
  (c9_collect_state_effect_amended hRoot stModel 0).1 0
    EMetaDataKey.Collection (by decide)

/-! ## Claim C10 -/

/-- Claim C10: after `defineModel(c, "")` the collection binding exists
(`hasMetadata` is true and the raw store holds the empty string), but the
coercing getter reports it as absent, so `collectModelInformation` fails
with `ModelNotFoundError` — every falsy stored value is coerced to the
null sentinel. -/
theorem c10_empty_collection_name_model_not_found (h : Hierarchy)
    (st : OrmState) (c : ClassId) :
    Reflect.hasMetadata (ReflectUtils.defineModel st c "").store
      EMetaDataKey.Collection c = true ∧
    Reflect.getMetadata (ReflectUtils.defineModel st c "").store
      EMetaDataKey.Collection c = some (.str "") ∧
    ReflectUtils.get (ReflectUtils.defineModel st c "").store
      EMetaDataKey.Collection c = none ∧
    ReflectUtils.collectModelInformation h (ReflectUtils.defineModel st c "") c =
      (.error (.modelNotFound c), ReflectUtils.defineModel st c "") := by
  have hm : Reflect.getMetadata (ReflectUtils.defineModel st c "").store
      EMetaDataKey.Collection c = some (.str "") := by
    simp only [ReflectUtils.defineModel]
    rw [getMetadata_set_other _ _ _ _ _ _
      (fun hp => EMetaDataKey.noConfusion hp.2)]
    exact getMetadata_set_same _ _ _ _
  have hhas : Reflect.hasMetadata (ReflectUtils.defineModel st c "").store
      EMetaDataKey.Collection c = true := by
    unfold Reflect.hasMetadata
    rw [hm]
    rfl
  have hget : ReflectUtils.get (ReflectUtils.defineModel st c "").store
      EMetaDataKey.Collection c = none := by
    unfold ReflectUtils.get
    rw [hm]
    rfl
  have hcoll : ReflectUtils.collectModelInformation h
      (ReflectUtils.defineModel st c "") c =
      (.error (.modelNotFound c), ReflectUtils.defineModel st c "") := by
    unfold ReflectUtils.collectModelInformation
    simp only [hget]
  exact ⟨hhas, hm, hget, hcoll⟩

